import Mathlib

/-!
Shallow embedding of the log-OS word/logic board game core
(board cells, tile system, placement validation, blank resolver,
base scoring, logic-chain compiler, cascade evaluator, and the
opponent move-search placement evaluation), together with theorems
settling the specification claims about it.
-/

namespace LogOS

/-- Operator tags carried by fixed board cells (types.ts `Operator`). -/
inductive Operator where
  | IF | THEN | AND | OR | PLUS | MINUS | MULT | OVER | START
deriving DecidableEq, Repr

/-- `gameMode ∈ {DYNAMIC, FIXED}`. -/
inductive GameMode where
  | DYNAMIC | FIXED
deriving DecidableEq, Repr

/-- `placementMode ∈ {ACROSTIC, GO}`. -/
inductive PlacementMode where
  | ACROSTIC | GO
deriving DecidableEq, Repr

/-- Direction of a candidate placement in the move search ('H' | 'V'). -/
inductive Dir where
  | H | V
deriving DecidableEq, Repr

/-- A board cell (types.ts `CellData`); the optional TS fields
`isLocked`/`isBlank`/`turnPlaced` are read through `|| false` / `|| 0`
by the code, so they are modelled with those defaults. -/
structure CellData where
  id : String
  row : Nat
  col : Nat
  operator : Option Operator
  letter : Option Char
  isLocked : Bool := false
  isBlank : Bool := false
  turnPlaced : Nat := 0
deriving DecidableEq, Repr

abbrev Grid := List (List CellData)

def BOARD_SIZE : Nat := 11

def defaultCell : CellData :=
  { id := "", row := 0, col := 0, operator := none, letter := none }

/-- `grid[r][c]` for in-range Nat indices (out-of-range reads yield an
empty cell; the source always bound-checks before indexing). -/
def getCell (g : Grid) (r c : Nat) : CellData :=
  (g.getD r []).getD c defaultCell

/-- Indexing with Int coordinates, as produced by walk arithmetic. -/
def getCellI (g : Grid) (r c : Int) : CellData :=
  getCell g r.toNat c.toNat

/-- `${r}-${c}` cell ids as generated by the board generator. -/
def mkId (r c : Nat) : String :=
  toString r ++ "-" ++ toString c

/-- Replace the cell at `(r, c)`. -/
def setCellFull (g : Grid) (r c : Nat) (cell : CellData) : Grid :=
  g.set r ((g.getD r []).set c cell)

-- ------------------------------------------------------------------
-- Tile system (src/utils/tileSystem.ts)
-- ------------------------------------------------------------------

/-- `LETTER_DISTRIBUTION` (letter → tile count, 26 letters + wildcard). -/
def LETTER_DISTRIBUTION : List (Char × Nat) :=
  [('A', 9), ('B', 2), ('C', 2), ('D', 4), ('E', 12), ('F', 2), ('G', 3),
   ('H', 2), ('I', 9), ('J', 1), ('K', 1), ('L', 4), ('M', 2), ('N', 6),
   ('O', 8), ('P', 2), ('Q', 1), ('R', 6), ('S', 4), ('T', 6), ('U', 4),
   ('V', 2), ('W', 2), ('X', 1), ('Y', 2), ('Z', 1), ('*', 2)]

/-- `LETTER_VALUES` (letter → point value; wildcard 0; unknown keys
read as 0 through `|| 0`). -/
def letterValueChar (ch : Char) : Int :=
  if ch = 'A' then 1 else if ch = 'B' then 3 else if ch = 'C' then 3
  else if ch = 'D' then 2 else if ch = 'E' then 1 else if ch = 'F' then 4
  else if ch = 'G' then 2 else if ch = 'H' then 4 else if ch = 'I' then 1
  else if ch = 'J' then 8 else if ch = 'K' then 5 else if ch = 'L' then 1
  else if ch = 'M' then 3 else if ch = 'N' then 1 else if ch = 'O' then 1
  else if ch = 'P' then 3 else if ch = 'Q' then 10 else if ch = 'R' then 1
  else if ch = 'S' then 1 else if ch = 'T' then 1 else if ch = 'U' then 1
  else if ch = 'V' then 4 else if ch = 'W' then 4 else if ch = 'X' then 8
  else if ch = 'Y' then 4 else if ch = 'Z' then 10 else 0

/-- `LETTER_VALUES[cell.letter || ''] || 0`. -/
def letterValue : Option Char → Int
  | none => 0
  | some ch => letterValueChar ch

/-- The flat multiset expansion of the distribution table, before the
Fisher–Yates shuffle in `generateTileBag`. -/
def baseBag : List Char :=
  LETTER_DISTRIBUTION.flatMap fun p => List.replicate p.2 p.1

/-- One Fisher–Yates swap `[bag[i], bag[j]] = [bag[j], bag[i]]`. -/
def swapAt (l : List Char) (i j : Nat) : List Char :=
  (l.set i (l.getD j ' ')).set j (l.getD i ' ')

/-- The shuffle loop `for (i = bag.length-1; i > 0; i--)`, with the
random draws `Math.floor(Math.random() * (i + 1))` supplied by an
oracle (`oracle i % (i + 1)` is the chosen index `j ≤ i`). -/
def fisherYatesAux (oracle : Nat → Nat) : Nat → List Char → List Char
  | 0, l => l
  | i + 1, l => fisherYatesAux oracle i (swapAt l (i + 1) (oracle (i + 1) % (i + 2)))

/-- `generateTileBag`: expand the distribution and shuffle. -/
def generateTileBag (oracle : Nat → Nat) : List Char :=
  fisherYatesAux oracle (baseBag.length - 1) baseBag

/-- `drawTiles(currentHand, tileBag)`: fill the hand to 7 from the
front of the bag; a no-op when `needed <= 0` or the bag is empty. -/
def drawTiles (currentHand tileBag : List Char) : List Char × List Char :=
  let needed : Int := 7 - (currentHand.length : Int)
  if needed ≤ 0 ∨ tileBag.length = 0 then
    (currentHand, tileBag)
  else
    let drawn := tileBag.take needed.toNat
    let newBag := tileBag.drop needed.toNat
    (currentHand ++ drawn, newBag)

-- ------------------------------------------------------------------
-- Placement validation (validatePlacementRules)
-- ------------------------------------------------------------------

/-- The FIXED-mode inner loop: no run of more than one consecutive
locked letter (`lockedRun > 1` fails). -/
def lockedRunOk : Nat → List Bool → Bool
  | _, [] => true
  | cnt, b :: bs =>
    if b then
      if cnt + 1 > 1 then false else lockedRunOk (cnt + 1) bs
    else lockedRunOk 0 bs

/-- The per-word check applied when a maximal run ends: dictionary
membership, and in FIXED mode the locked-run rule when the word has
an unlocked letter. -/
def wordOk (dict : List String) (gameMode : GameMode) (w : String)
    (meta : List Bool) : Bool :=
  if w.length > 1 then
    if ¬ dict.contains w then false
    else if gameMode = GameMode.FIXED ∧ meta.any (fun locked => ¬ locked) then
      lockedRunOk 0 meta
    else true
  else true

/-- `checkLine` body: accumulate the current run and its locked flags,
validating at each gap and at the end of the line. -/
def checkLineGo (dict : List String) (gameMode : GameMode) :
    List CellData → String → List Bool → Bool
  | [], w, meta => wordOk dict gameMode w meta
  | cell :: rest, w, meta =>
    match cell.letter with
    | some ch => checkLineGo dict gameMode rest (w.push ch) (meta ++ [cell.isLocked])
    | none =>
      wordOk dict gameMode w meta && checkLineGo dict gameMode rest "" []

def checkLine (dict : List String) (gameMode : GameMode) (cells : List CellData) : Bool :=
  checkLineGo dict gameMode cells "" []

/-- Isolation check: every lettered cell has a lettered orthogonal
neighbor. -/
def isolationOk (g : Grid) : Bool :=
  (List.range BOARD_SIZE).all fun r =>
    (List.range BOARD_SIZE).all fun c =>
      if (getCell g r c).letter.isSome then
        let hasHorz := (decide (c > 0) && (getCell g r (c - 1)).letter.isSome) ||
          (decide (c < BOARD_SIZE - 1) && (getCell g r (c + 1)).letter.isSome)
        let hasVert := (decide (r > 0) && (getCell g (r - 1) c).letter.isSome) ||
          (decide (r < BOARD_SIZE - 1) && (getCell g (r + 1) c).letter.isSome)
        hasHorz || hasVert
      else true

/-- `grid.some(row => row.some(cell => cell.isLocked && cell.letter))`. -/
def hasLockedTiles (g : Grid) : Bool :=
  g.any fun row => row.any fun cell => cell.isLocked && cell.letter.isSome

/-- The newly placed (lettered, unlocked) cell coordinates, in scan order. -/
def newTilesList (g : Grid) : List (Nat × Nat) :=
  (List.range BOARD_SIZE).flatMap fun r =>
    (List.range BOARD_SIZE).filterMap fun c =>
      if (getCell g r c).letter.isSome ∧ ¬ (getCell g r c).isLocked then
        some (r, c)
      else none

/-- The four orthogonal neighbors of a tile, as Int coordinates. -/
def orthNeighbors (t : Nat × Nat) : List (Int × Int) :=
  [((t.1 : Int) - 1, (t.2 : Int)), ((t.1 : Int) + 1, (t.2 : Int)),
   ((t.1 : Int), (t.2 : Int) - 1), ((t.1 : Int), (t.2 : Int) + 1)]

/-- Does some in-range orthogonal neighbor hold a locked letter? -/
def hasLockedNeighbor (g : Grid) (t : Nat × Nat) : Bool :=
  (orthNeighbors t).any fun n =>
    decide (0 ≤ n.1 ∧ n.1 < (BOARD_SIZE : Int) ∧ 0 ≤ n.2 ∧ n.2 < (BOARD_SIZE : Int)) &&
      ((getCellI g n.1 n.2).letter.isSome && (getCellI g n.1 n.2).isLocked)

/-- The ACROSTIC connectivity check: once locked tiles exist, at least
one new tile (`isConnected` is set and the loop breaks on the first
hit) must have a locked lettered neighbor. -/
def connectivityOk (g : Grid) (placementMode : PlacementMode) : Bool :=
  if placementMode = PlacementMode.ACROSTIC then
    if hasLockedTiles g then
      let newTiles := newTilesList g
      if newTiles.length > 0 then
        newTiles.any (hasLockedNeighbor g)
      else true
    else true
  else true

/-- `validatePlacementRules(grid, gameMode, placementMode, dictionary)`:
no dictionary ⇒ always invalid; otherwise isolation, ACROSTIC
connectivity, and per-line dictionary / FIXED-mode checks. -/
def validatePlacementRules (g : Grid) (gameMode : GameMode)
    (placementMode : PlacementMode) (dictionary : Option (List String)) : Bool :=
  match dictionary with
  | none => false
  | some dict =>
    isolationOk g &&
    connectivityOk g placementMode &&
    ((List.range BOARD_SIZE).all fun r => checkLine dict gameMode (g.getD r [])) &&
    ((List.range BOARD_SIZE).all fun c =>
      checkLine dict gameMode (g.map fun row => row.getD c defaultCell))

-- ------------------------------------------------------------------
-- Blank solver (resolveGridWithBlanks)
-- ------------------------------------------------------------------

/-- The wildcard cells `grid[r][c].letter === '*'`, in scan order. -/
def blankCoords (g : Grid) : List (Nat × Nat) :=
  (List.range BOARD_SIZE).flatMap fun r =>
    (List.range BOARD_SIZE).filterMap fun c =>
      if (getCell g r c).letter = some '*' then some (r, c) else none

def alphabet : List Char :=
  "ABCDEFGHIJKLMNOPQRSTUVWXYZ".toList

/-- Overwrite the letter of the cell at `(r, c)`. -/
def setLetter (g : Grid) (r c : Nat) (ch : Char) : Grid :=
  setCellFull g r c { getCell g r c with letter := some ch }

/-- The depth-first backtracking over the alphabet, one blank at a
time; first full assignment that validates wins. -/
def trySolve (gameMode : GameMode) (placementMode : PlacementMode)
    (dict : List String) : List (Nat × Nat) → Grid → Option Grid
  | [], g =>
    if validatePlacementRules g gameMode placementMode (some dict) then some g else none
  | (r, c) :: rest, g => tryLetters gameMode placementMode dict r c rest g alphabet
where
  tryLetters (gameMode : GameMode) (placementMode : PlacementMode)
      (dict : List String) (r c : Nat) (rest : List (Nat × Nat)) (g : Grid) :
      List Char → Option Grid
    | [] => none
    | ch :: chs =>
      match trySolve gameMode placementMode dict rest (setLetter g r c ch) with
      | some res => some res
      | none => tryLetters gameMode placementMode dict r c rest g chs

/-- `resolveGridWithBlanks`: no dictionary ⇒ no resolution; no blanks ⇒
validate directly; otherwise backtrack. -/
def resolveGridWithBlanks (g : Grid) (gameMode : GameMode)
    (placementMode : PlacementMode) (dictionary : Option (List String)) : Option Grid :=
  match dictionary with
  | none => none
  | some dict =>
    let blanks := blankCoords g
    if blanks.isEmpty then
      if validatePlacementRules g gameMode placementMode (some dict) then some g else none
    else trySolve gameMode placementMode dict blanks g

-- ------------------------------------------------------------------
-- Base scoring (calculateScrabbleScore)
-- ------------------------------------------------------------------

/-- `getCellScore`: 0 when the cell is a resolved blank, else the
value-table lookup of its letter. -/
def getCellScore (cell : CellData) : Int :=
  if cell.isBlank then 0 else letterValue cell.letter

/-- Walk backward from `(r, c)` along `(-dr, -dc)` while the previous
cell is in range and lettered; returns the run's start coordinate. -/
def scanBackward (g : Grid) : Nat → Int → Int → Int → Int → Int × Int
  | 0, r, c, _, _ => (r, c)
  | fuel + 1, r, c, dr, dc =>
    if 0 ≤ r - dr ∧ r - dr < (BOARD_SIZE : Int) ∧ 0 ≤ c - dc ∧
        c - dc < (BOARD_SIZE : Int) ∧ (getCellI g (r - dr) (c - dc)).letter.isSome then
      scanBackward g fuel (r - dr) (c - dc) dr dc
    else (r, c)

/-- Walk forward collecting the run's cells while in range and lettered. -/
def collectWord (g : Grid) : Nat → Int → Int → Int → Int → List CellData
  | 0, _, _, _, _ => []
  | fuel + 1, r, c, dr, dc =>
    if 0 ≤ r ∧ r < (BOARD_SIZE : Int) ∧ 0 ≤ c ∧ c < (BOARD_SIZE : Int) ∧
        (getCellI g r c).letter.isSome then
      getCellI g r c :: collectWord g fuel (r + dr) (c + dc) dr dc
    else []

/-- The `scan` closure of `calculateScrabbleScore`: find the maximal
run through `(r, c)` in direction `(dr, dc)`; a run of length > 1 is
scored once, keyed by orientation and start coordinate. -/
def scanRun (g : Grid) (r c : Nat) (dr dc : Int)
    (acc : List String × Int) : List String × Int :=
  let start := scanBackward g (BOARD_SIZE + 1) r c dr dc
  let wordCells := collectWord g (BOARD_SIZE + 1) start.1 start.2 dr dc
  if wordCells.length > 1 then
    let runId := (if dr = 0 then "H" else "V") ++ ":" ++
      toString start.1 ++ "-" ++ toString start.2
    if acc.1.contains runId then acc
    else (acc.1 ++ [runId],
      acc.2 + wordCells.foldl (fun sum cell => sum + getCellScore cell) 0)
  else acc

/-- `calculateScrabbleScore(currentGrid, newTiles)`: sum the deduplicated
qualifying runs touched by this turn's new tiles. -/
def calculateScrabbleScore (g : Grid) (newTiles : List (Nat × Nat)) : Int :=
  (newTiles.foldl (fun acc t =>
    if (getCell g t.1 t.2).letter.isSome then
      scanRun g t.1 t.2 1 0 (scanRun g t.1 t.2 0 1 acc)
    else acc) ([], 0)).2

-- ------------------------------------------------------------------
-- Logic chain compiler (analyzeBoardLogic)
-- ------------------------------------------------------------------

/-- A compiled operator entry (`CompiledOp`, with the `clusterId`
carried by the raw entries). -/
structure CompiledOp where
  op : Operator
  turn : Nat
  lastModifiedTurn : Nat
  word : String
  id : String
  wordScore : Int
  cellIds : List String
  clusterId : Nat
deriving DecidableEq, Repr

/-- A word instance found by scanning (`WordMetadata`). -/
structure WordMetadata where
  word : String
  score : Int
  turn : Nat
  cellIds : List String
  clusterId : Nat
deriving DecidableEq, Repr

/-- A per-cluster compiled chain (`CompiledChain`). -/
structure CompiledChain where
  id : Nat
  compiledOps : List CompiledOp
  dataWords : List String
deriving DecidableEq, Repr

/-- In-range 4-neighbors for the GO-mode flood fill. -/
def floodNeighbors (r c : Nat) : List (Nat × Nat) :=
  ([((r : Int) - 1, (c : Int)), ((r : Int) + 1, (c : Int)),
    ((r : Int), (c : Int) - 1), ((r : Int), (c : Int) + 1)]).filterMap fun n =>
    if 0 ≤ n.1 ∧ n.1 < (BOARD_SIZE : Int) ∧ 0 ≤ n.2 ∧ n.2 < (BOARD_SIZE : Int) then
      some (n.1.toNat, n.2.toNat)
    else none

/-- BFS over lettered cells from a seed, extending `visited` and the
cell-to-cluster map with cluster id `cid` (front-of-queue pops, new
finds appended, as in the source's shift/push loop). -/
def bfsGo (g : Grid) : Nat → List (Nat × Nat) → List String →
    List (String × Nat) → Nat → List String × List (String × Nat)
  | 0, _, visited, cmap, _ => (visited, cmap)
  | _ + 1, [], visited, cmap, _ => (visited, cmap)
  | fuel + 1, curr :: rest, visited, cmap, cid =>
    let step := (floodNeighbors curr.1 curr.2).foldl
      (fun (st : List (Nat × Nat) × List String × List (String × Nat)) n =>
        let nid := mkId n.1 n.2
        if (getCell g n.1 n.2).letter.isSome ∧ ¬ st.2.1.contains nid then
          (st.1 ++ [n], st.2.1 ++ [nid], st.2.2 ++ [(nid, cid)])
        else st)
      (rest, visited, cmap)
    bfsGo g fuel step.1 step.2.1 step.2.2 cid

/-- GO-mode clustering: row-major flood fill over lettered cells;
returns the cell-id to cluster-id map and `nextClusterId`. -/
def computeClusters (g : Grid) : List (String × Nat) × Nat :=
  let res := (List.range BOARD_SIZE).foldl (fun st r =>
    (List.range BOARD_SIZE).foldl
      (fun (st : List String × List (String × Nat) × Nat) c =>
        let cid := mkId r c
        if (getCell g r c).letter.isSome ∧ ¬ st.1.contains cid then
          let out := bfsGo g (BOARD_SIZE * BOARD_SIZE * 2) [(r, c)]
            (st.1 ++ [cid]) (st.2.1 ++ [(cid, st.2.2)]) st.2.2
          (out.1, out.2, st.2.2 + 1)
        else st) st) ([], [], 1)
  (res.2.1, res.2.2)

/-- `cellToCluster.get(cellIds[0]) || 0` in GO mode; cluster 1 in
ACROSTIC mode. -/
def getClusterId (placementMode : PlacementMode) (cmap : List (String × Nat))
    (cellIds : List String) : Nat :=
  if placementMode = PlacementMode.ACROSTIC then 1
  else
    match cellIds with
    | [] => 0
    | cid :: _ => (cmap.lookup cid).getD 0

/-- The in-progress run carried by the logic scanner. -/
structure ScanRun where
  word : String
  score : Int
  maxTurn : Nat
  ops : List (Operator × Nat × String)
  cellIds : List String
deriving DecidableEq, Repr

def emptyRun : ScanRun :=
  { word := "", score := 0, maxTurn := 0, ops := [], cellIds := [] }

/-- The accumulated analyzer state (visited word keys, raw operator
entries, data words, and every valid word found). -/
structure ScanAcc where
  visitedWords : List String
  rawOps : List CompiledOp
  dataWords : List (String × Nat)
  allValidWords : List WordMetadata
deriving DecidableEq, Repr

def emptyScanAcc : ScanAcc :=
  { visitedWords := [], rawOps := [], dataWords := [], allValidWords := [] }

/-- Flush a finished run: a maximal run of length > 1 that the
dictionary accepts (`dictionary ? dictionary.has(w) : true`) becomes a
word record, deduplicated by its cell-id sequence; runs crossing
operators emit one raw entry per operator cell, the rest are data
words. -/
def flushRun (valid : String → Bool) (placementMode : PlacementMode)
    (cmap : List (String × Nat)) (run : ScanRun) (acc : ScanAcc) : ScanAcc :=
  if run.word.length > 1 then
    if valid run.word then
      let uniqueKey := String.intercalate "," run.cellIds
      if acc.visitedWords.contains uniqueKey then acc
      else
        let cId := getClusterId placementMode cmap run.cellIds
        let acc1 := { acc with
          visitedWords := acc.visitedWords ++ [uniqueKey],
          allValidWords := acc.allValidWords ++
            [({ word := run.word, score := run.score, turn := run.maxTurn,
                cellIds := run.cellIds, clusterId := cId } : WordMetadata)] }
        if run.ops.isEmpty then
          { acc1 with dataWords := acc1.dataWords ++ [(run.word, cId)] }
        else
          { acc1 with rawOps := acc1.rawOps ++ run.ops.map (fun o =>
              ({ op := o.1, turn := o.2.1, lastModifiedTurn := run.maxTurn,
                 word := run.word, id := o.2.2, wordScore := run.score,
                 cellIds := run.cellIds, clusterId := cId } : CompiledOp)) }
    else acc
  else acc

/-- The per-line scanner of `analyzeBoardLogic`: build up runs over the
line's cells, recording operators of non-START operator cells. -/
def scanLineGo (valid : String → Bool) (placementMode : PlacementMode)
    (cmap : List (String × Nat)) :
    List CellData → ScanRun → ScanAcc → ScanAcc
  | [], run, acc => flushRun valid placementMode cmap run acc
  | cell :: rest, run, acc =>
    match cell.letter with
    | some ch =>
      let run' : ScanRun :=
        { word := run.word.push ch,
          score := run.score + (if cell.isBlank then 0 else letterValueChar ch),
          maxTurn := max run.maxTurn cell.turnPlaced,
          ops := run.ops ++
            (match cell.operator with
             | some op => if op ≠ Operator.START then [(op, cell.turnPlaced, cell.id)] else []
             | none => []),
          cellIds := run.cellIds ++ [cell.id] }
      scanLineGo valid placementMode cmap rest run' acc
    | none =>
      scanLineGo valid placementMode cmap rest emptyRun
        (flushRun valid placementMode cmap run acc)

def scanLineLogic (valid : String → Bool) (placementMode : PlacementMode)
    (cmap : List (String × Nat)) (cells : List CellData) (acc : ScanAcc) : ScanAcc :=
  scanLineGo valid placementMode cmap cells emptyRun acc

/-- Sort key of the chain assembly: ascending by the turn the operator
cell's letter was locked. -/
def byTurn (a b : CompiledOp) : Prop := a.turn ≤ b.turn

instance : DecidableRel byTurn := fun a b => Nat.decLe a.turn b.turn

instance : IsTotal CompiledOp byTurn := ⟨fun a b => Nat.le_total a.turn b.turn⟩

instance : IsTrans CompiledOp byTurn := ⟨fun _ _ _ h h' => Nat.le_trans h h'⟩

/-- The fixed 5-bucket chain assembly for one cluster's operator
entries: sort by turn, then first IF, all ORs, first THEN, all
AND/PLUS, all MINUS/MULT/OVER. -/
def assembleChain (clusterOps : List CompiledOp) : List CompiledOp :=
  let sorted := List.insertionSort byTurn clusterOps
  let firstIf := sorted.find? fun x => x.op = Operator.IF
  let allOrs := List.insertionSort byTurn (sorted.filter fun x => x.op = Operator.OR)
  let firstThen := sorted.find? fun x => x.op = Operator.THEN
  let additions := List.insertionSort byTurn
    (sorted.filter fun x => x.op = Operator.AND ∨ x.op = Operator.PLUS)
  let modifiers := List.insertionSort byTurn
    (sorted.filter fun x => [Operator.MINUS, Operator.MULT, Operator.OVER].contains x.op)
  firstIf.toList ++ allOrs ++ firstThen.toList ++ additions ++ modifiers

/-- The analyzer's result: per-cluster compiled chains plus every valid
word found. -/
structure AnalyzeResult where
  chains : List CompiledChain
  allValidWords : List WordMetadata
deriving DecidableEq, Repr

/-- The body of `analyzeBoardLogic`, parametrized by the word-validity
predicate (`dictionary ? dictionary.has(w) : true`). -/
def analyzeCore (g : Grid) (valid : String → Bool)
    (placementMode : PlacementMode) : AnalyzeResult :=
  let clusters := if placementMode = PlacementMode.GO then computeClusters g else ([], 1)
  let cmap := clusters.1
  let nextClusterId := clusters.2
  let accRows := g.foldl (fun acc row => scanLineLogic valid placementMode cmap row acc) emptyScanAcc
  let acc := (List.range BOARD_SIZE).foldl (fun acc c =>
    scanLineLogic valid placementMode cmap (g.map fun row => row.getD c defaultCell) acc) accRows
  let maxCluster := if placementMode = PlacementMode.ACROSTIC then 1 else nextClusterId - 1
  let chains := (List.range maxCluster).filterMap fun i0 =>
    let i := i0 + 1
    let clusterOps := acc.rawOps.filter fun x => x.clusterId = i
    let clusterData := (acc.dataWords.filter fun x => x.2 = i).map fun x => x.1
    if clusterOps.isEmpty ∧ clusterData.isEmpty then none
    else some { id := i, compiledOps := assembleChain clusterOps, dataWords := clusterData }
  { chains := chains, allValidWords := acc.allValidWords }

/-- `analyzeBoardLogic(grid, dictionary, placementMode)`. -/
def analyzeBoardLogic (g : Grid) (dictionary : Option (List String))
    (placementMode : PlacementMode) : AnalyzeResult :=
  analyzeCore g
    (fun w => match dictionary with
      | some dict => dict.contains w
      | none => true)
    placementMode

-- ------------------------------------------------------------------
-- Cascade evaluator (calculateChainScore)
-- ------------------------------------------------------------------

/-- One step of the cascade fold over a chain's Actions: THEN sets the
outcome and establishes it; once established, PLUS/AND add, MINUS
subtracts, MULT multiplies, and OVER floor-divides unless the word
score is 0 (divide-by-zero guard). -/
def cascadeStep (st : Int × Bool) (action : CompiledOp) : Int × Bool :=
  if action.op = Operator.THEN then (action.wordScore, true)
  else if st.2 then
    match action.op with
    | Operator.PLUS => (st.1 + action.wordScore, true)
    | Operator.AND => (st.1 + action.wordScore, true)
    | Operator.MINUS => (st.1 - action.wordScore, true)
    | Operator.MULT => (st.1 * action.wordScore, true)
    | Operator.OVER =>
      if action.wordScore ≠ 0 then (Int.fdiv st.1 action.wordScore, true) else st
    | _ => st
  else st

/-- The chain's precomputed cascade state: outcome and the
`targetEstablished` flag, folded over the Actions from `(0, false)`. -/
def cascadeOutcome (actions : List CompiledOp) : Int × Bool :=
  actions.foldl cascadeStep (0, false)

/-- Is a chain entry a Trigger (IF or OR)? -/
def isTrigger (op : CompiledOp) : Bool :=
  op.op = Operator.IF ∨ op.op = Operator.OR

/-- `Array.from`-style insertion-ordered set union of cell ids. -/
def addActive (acc : List String) (ids : List String) : List String :=
  ids.foldl (fun acc cid => if acc.contains cid then acc else acc ++ [cid]) acc

/-- Result of `calculateChainScore`. -/
structure ChainScoreResult where
  score : Int
  activeCellIds : List String
deriving DecidableEq, Repr

/-- `calculateChainScore(chains, allValidWords, currentTurn)`: per
chain, split Triggers from Actions (skipping chains lacking either),
fold the cascade outcome, skip when no THEN established it, then add
the outcome once per (freshly formed word, matching Trigger) pair in
the chain's cluster, collecting highlight cell ids. -/
def calculateChainScore (chains : List CompiledChain)
    (allValidWords : List WordMetadata) (currentTurn : Nat) : ChainScoreResult :=
  chains.foldl (fun (acc : ChainScoreResult) chain =>
    let triggers := chain.compiledOps.filter isTrigger
    let actions := chain.compiledOps.filter fun op => ¬ isTrigger op
    if triggers.isEmpty ∨ actions.isEmpty then acc
    else
      let cascade := cascadeOutcome actions
      if ¬ cascade.2 then acc
      else
        let newlyFormedWords := allValidWords.filter fun w =>
          w.turn = currentTurn ∧ w.clusterId = chain.id
        newlyFormedWords.foldl (fun acc2 newWord =>
          triggers.foldl (fun acc3 trigger =>
            if newWord.word = trigger.word then
              { score := acc3.score + cascade.1,
                activeCellIds := addActive (addActive acc3.activeCellIds newWord.cellIds)
                  (chain.compiledOps.flatMap fun op => op.cellIds) }
            else acc3) acc2) acc)
    { score := 0, activeCellIds := [] }

-- ------------------------------------------------------------------
-- Move search placement evaluation (evaluatePlacement)
-- ------------------------------------------------------------------

/-- The slice of `stateRef.current` read by `evaluatePlacement`. -/
structure SearchState where
  grid : Grid
  gameMode : GameMode
  dictionary : Option (List String)
  placementMode : PlacementMode
  cpuHand : List Char
  turnCount : Nat
deriving Repr

/-- The scratch copy `grid.map(row => row.map(cell => ({...cell})))`. -/
def cloneGrid (g : Grid) : Grid :=
  g.map fun row => row.map fun cell => cell

/-- `startR`: the word's start row for pivot-aligned placement. -/
def placementStartR (pivotIdx ar : Nat) (dir : Dir) : Int :=
  if dir = Dir.V then (ar : Int) - (pivotIdx : Int) else (ar : Int)

/-- `startC`: the word's start column for pivot-aligned placement. -/
def placementStartC (pivotIdx ac : Nat) (dir : Dir) : Int :=
  if dir = Dir.H then (ac : Int) - (pivotIdx : Int) else (ac : Int)

/-- The overlay loop of `evaluatePlacement`: existing letters must
exactly match the word's character (never overwrites); new letters
consume from the scratch hand, substituting a wildcard when the exact
letter is exhausted, and are locked with the current turn; `none` is
the in-loop rejection (`return -1`). -/
def overlayWord (dir : Dir) (startR startC : Int) (turnCount : Nat) :
    List Char → Nat → Grid → List Char → Nat → List (Nat × Nat) →
    Option (Grid × List Char × Nat × List (Nat × Nat))
  | [], _, g, hand, placed, coords => some (g, hand, placed, coords)
  | ch :: restWord, k, g, hand, placed, coords =>
    let r : Int := if dir = Dir.V then startR + k else startR
    let c : Int := if dir = Dir.H then startC + k else startC
    let cell := getCellI g r c
    if cell.letter.isSome then
      if cell.letter = some ch then
        overlayWord dir startR startC turnCount restWord (k + 1) g hand placed coords
      else none
    else
      if hand.contains ch then
        let g' := setCellFull g r.toNat c.toNat
          { cell with
            letter := some ch, isLocked := true, isBlank := false,
            turnPlaced := turnCount }
        overlayWord dir startR startC turnCount restWord (k + 1) g'
          (hand.erase ch) (placed + 1) (coords ++ [(r.toNat, c.toNat)])
      else if hand.contains '*' then
        let g' := setCellFull g r.toNat c.toNat
          { cell with
            letter := some ch, isLocked := true, isBlank := true,
            turnPlaced := turnCount }
        overlayWord dir startR startC turnCount restWord (k + 1) g'
          (hand.erase '*') (placed + 1) (coords ++ [(r.toNat, c.toNat)])
      else none

/-- `evaluatePlacement(word, pivotIdx, ar, ac, dir)`: reject (-1) on
off-board starts, overlay failures, degenerate zero-letter overlays,
and failed validation; otherwise the base score plus the logic-chain
bonus of the hypothetical board. -/
def evaluatePlacement (st : SearchState) (word : String) (pivotIdx ar ac : Nat)
    (dir : Dir) : Int :=
  let startR := placementStartR pivotIdx ar dir
  let startC := placementStartC pivotIdx ac dir
  if startR < 0 ∨ startC < 0 then -1
  else if dir = Dir.H ∧ startC + (word.length : Int) > (BOARD_SIZE : Int) then -1
  else if dir = Dir.V ∧ startR + (word.length : Int) > (BOARD_SIZE : Int) then -1
  else
    let nextGrid := cloneGrid st.grid
    match overlayWord dir startR startC st.turnCount word.toList 0 nextGrid
        st.cpuHand 0 [] with
    | none => -1
    | some (g', _, placedCount, newlyPlacedCoords) =>
      if placedCount = 0 then -1
      else if validatePlacementRules g' st.gameMode st.placementMode st.dictionary then
        let baseScore := calculateScrabbleScore g' newlyPlacedCoords
        let res := analyzeBoardLogic g' st.dictionary st.placementMode
        baseScore + (calculateChainScore res.chains res.allValidWords st.turnCount).score
      else -1

/-- `evaluatePlacement` with the session state threaded explicitly: the
source mutates only the scratch copies, so the session state comes
back untouched alongside the score. -/
def evaluatePlacementSession (st : SearchState) (word : String)
    (pivotIdx ar ac : Nat) (dir : Dir) : Int × SearchState :=
  (evaluatePlacement st word pivotIdx ar ac dir, st)

-- ------------------------------------------------------------------
-- Concrete-board construction helpers for the examples below
-- ------------------------------------------------------------------

/-- An all-empty 11×11 grid (operator layout irrelevant to the claims
below is left empty; operators are set per cell where needed). -/
def emptyGrid : Grid :=
  (List.range BOARD_SIZE).map fun r =>
    (List.range BOARD_SIZE).map fun c =>
      { id := mkId r c, row := r, col := c, operator := none, letter := none }

/-- Place a letter with the given lock/blank/turn flags. -/
def placeLetter (g : Grid) (r c : Nat) (ch : Char) (locked : Bool)
    (blank : Bool) (turn : Nat) : Grid :=
  setCellFull g r c
    { getCell g r c with
      letter := some ch, isLocked := locked,
      isBlank := blank, turnPlaced := turn }

/-- Set a cell's fixed operator tag. -/
def placeOperator (g : Grid) (r c : Nat) (op : Operator) : Grid :=
  setCellFull g r c { getCell g r c with operator := some op }

-- ------------------------------------------------------------------
-- Shared concrete fixtures
-- ------------------------------------------------------------------

/-- A compiled operator entry with the fields the cascade and assembly
inspect (kind, turn, word, word score); the rest are inert. -/
def mkChainOp (op : Operator) (turn : Nat) (w : String) (ws : Int) : CompiledOp :=
  { op := op, turn := turn, lastModifiedTurn := turn, word := w,
    id := toString turn, wordScore := ws, cellIds := [], clusterId := 1 }

-- ==================================================================
-- Theorems
-- ==================================================================

section Claims

/-- Helper: with the established flag still false, a fold over actions
none of which is THEN leaves the state untouched. -/
theorem foldl_cascade_no_then :
    ∀ (l : List CompiledOp), (∀ a ∈ l, a.op ≠ Operator.THEN) →
      ∀ o : Int, l.foldl cascadeStep (o, false) = (o, false) := by
  intro l
  induction l with
  | nil => intro _ o; rfl
  | cons a t ih =>
    intro h o
    have ha : a.op ≠ Operator.THEN := h a (List.mem_cons_self a t)
    have hstep : cascadeStep (o, false) a = (o, false) := by
      simp [cascadeStep, ha]
    rw [List.foldl_cons, hstep]
    exact ih (fun x hx => h x (List.mem_cons_of_mem a hx)) o

/-- C1: the cascade outcome is the fold of the chain's Actions in
assembled order from `(0, not-established)`: THEN sets the outcome and
establishes it; once established PLUS/AND add the word score, MINUS
subtracts it, MULT multiplies by it, and OVER floor-divides by a
nonzero word score while a zero word score is skipped; before any THEN
nothing changes, and a chain with no THEN contributes 0 through
`calculateChainScore`. In particular THEN 5, PLUS 10, MULT 2 give 30,
and a trailing OVER of word score 0 leaves it at 30. -/
theorem cascade_fold_semantics :
    (∀ (o : Int) (b : Bool) (a : CompiledOp), a.op = Operator.THEN →
      cascadeStep (o, b) a = (a.wordScore, true)) ∧
    (∀ (o : Int) (a : CompiledOp), a.op = Operator.PLUS ∨ a.op = Operator.AND →
      cascadeStep (o, true) a = (o + a.wordScore, true)) ∧
    (∀ (o : Int) (a : CompiledOp), a.op = Operator.MINUS →
      cascadeStep (o, true) a = (o - a.wordScore, true)) ∧
    (∀ (o : Int) (a : CompiledOp), a.op = Operator.MULT →
      cascadeStep (o, true) a = (o * a.wordScore, true)) ∧
    (∀ (o : Int) (a : CompiledOp), a.op = Operator.OVER → a.wordScore ≠ 0 →
      cascadeStep (o, true) a = (Int.fdiv o a.wordScore, true)) ∧
    (∀ (o : Int) (a : CompiledOp), a.op = Operator.OVER → a.wordScore = 0 →
      cascadeStep (o, true) a = (o, true)) ∧
    (∀ (o : Int) (a : CompiledOp), a.op ≠ Operator.THEN →
      cascadeStep (o, false) a = (o, false)) ∧
    (∀ (chain : CompiledChain) (ws : List WordMetadata) (t : Nat),
      (∀ a ∈ chain.compiledOps, a.op ≠ Operator.THEN) →
      (calculateChainScore [chain] ws t).score = 0) ∧
    cascadeOutcome [mkChainOp Operator.THEN 1 "t" 5, mkChainOp Operator.PLUS 2 "p" 10,
      mkChainOp Operator.MULT 3 "m" 2] = (30, true) ∧
    cascadeOutcome [mkChainOp Operator.THEN 1 "t" 5, mkChainOp Operator.PLUS 2 "p" 10,
      mkChainOp Operator.MULT 3 "m" 2, mkChainOp Operator.OVER 4 "v" 0] = (30, true) := by
  refine ⟨?_, ?_, ?_, ?_, ?_, ?_, ?_, ?_, by decide, by decide⟩
  · intro o b a h; simp [cascadeStep, h]
  · rintro o a (h | h) <;> simp [cascadeStep, h]
  · intro o a h; simp [cascadeStep, h]
  · intro o a h; simp [cascadeStep, h]
  · intro o a h hz; simp [cascadeStep, h, hz]
  · intro o a h hz; simp [cascadeStep, h, hz]
  · intro o a h; simp [cascadeStep, h]
  · intro chain ws t hno
    have hcas : cascadeOutcome (chain.compiledOps.filter fun op => ¬ isTrigger op) = (0, false) :=
      foldl_cascade_no_then _ (fun a ha => hno a (List.mem_of_mem_filter ha)) 0
    simp only [calculateChainScore, List.foldl_cons, List.foldl_nil]
    split
    · rfl
    · rw [hcas]
      simp

/-- Witness for `cascade_fold_semantics` at a concrete THEN step. -/
theorem cascade_fold_semantics_witness :
    cascadeStep (0, false) (mkChainOp Operator.THEN 1 "t" 5) = (5, true) :=
  cascade_fold_semantics.1 0 false (mkChainOp Operator.THEN 1 "t" 5) rfl

/-- C5: drawing fills the hand to 7 from the bag's front; the
resulting hand length is `min 7 (hand + bag)`, the bag shrinks by
exactly the number drawn, and the call is a no-op when the bag is
empty or the hand is full. -/
theorem drawTiles_invariant (hand bag : List Char) (h : hand.length ≤ 7) :
    (drawTiles hand bag).1.length = min 7 (hand.length + bag.length) ∧
    (drawTiles hand bag).1 = hand ++ bag.take (7 - hand.length) ∧
    (drawTiles hand bag).2 = bag.drop (7 - hand.length) ∧
    (drawTiles hand bag).2.length + ((drawTiles hand bag).1.length - hand.length) =
      bag.length ∧
    (bag = [] ∨ hand.length = 7 → drawTiles hand bag = (hand, bag)) := by
  have htn : ((7 : Int) - (hand.length : Int)).toNat = 7 - hand.length := by omega
  by_cases hc : (7 : Int) - (hand.length : Int) ≤ 0 ∨ bag.length = 0
  · have hres : drawTiles hand bag = (hand, bag) := by
      simp only [drawTiles]
      rw [if_pos hc]
    rcases hc with hc | hc
    · have hl : hand.length = 7 := by omega
      rw [hres]
      dsimp only
      exact ⟨by omega, by simp [hl], by simp [hl], by omega, fun _ => rfl⟩
    · have hb : bag = [] := List.length_eq_zero.mp hc
      subst hb
      rw [hres]
      dsimp only
      exact ⟨by simp; omega, by simp, by simp, by simp, fun _ => rfl⟩
  · have hres : drawTiles hand bag =
        (hand ++ bag.take (7 - hand.length), bag.drop (7 - hand.length)) := by
      simp only [drawTiles]
      rw [if_neg hc, htn]
    rw [not_or] at hc
    obtain ⟨hc1, hc2⟩ := hc
    rw [hres]
    refine ⟨?_, rfl, rfl, ?_, ?_⟩
    · simp only [List.length_append, List.length_take]
      omega
    · simp only [List.length_append, List.length_take, List.length_drop]
      omega
    · rintro (hb | hb)
      · subst hb
        simp at hc2
      · exfalso
        omega

/-- Witness for `drawTiles_invariant` at a concrete hand and bag. -/
theorem drawTiles_invariant_witness :
    (drawTiles ['A', 'B'] ['C', 'D', 'E', 'F', 'G', 'H', 'I']).1.length =
      min 7 (['A', 'B'].length + ['C', 'D', 'E', 'F', 'G', 'H', 'I'].length) :=
  (drawTiles_invariant ['A', 'B'] ['C', 'D', 'E', 'F', 'G', 'H', 'I'] (by decide)).1

/-- C7: with no dictionary, placement validation is always invalid and
blank resolution yields no resolution, for every board and mode — the
pipeline fails closed instead of throwing. -/
theorem no_dictionary_fails_closed :
    ∀ (g : Grid) (gameMode : GameMode) (placementMode : PlacementMode),
      validatePlacementRules g gameMode placementMode none = false ∧
      resolveGridWithBlanks g gameMode placementMode none = none :=
  fun _ _ _ => ⟨rfl, rfl⟩

/-- Helper: the trigger-matching inner fold adds the cascade outcome
once per matching trigger. -/
theorem triggerFold_score (v : Int) (ids : List String) (w : WordMetadata)
    (triggers : List CompiledOp) (acc : ChainScoreResult) :
    (triggers.foldl (fun acc3 trigger =>
      if w.word = trigger.word then
        { score := acc3.score + v,
          activeCellIds := addActive (addActive acc3.activeCellIds w.cellIds) ids }
      else acc3) acc).score =
    acc.score + ((triggers.countP fun trig => decide (w.word = trig.word) : Nat) : Int) * v := by
  induction triggers generalizing acc with
  | nil => simp
  | cons tr rest ih =>
    by_cases h : w.word = tr.word
    · rw [List.foldl_cons, if_pos h, ih]
      simp only [List.countP_cons, decide_eq_true h, if_pos rfl]
      push_cast
      ring
    · rw [List.foldl_cons, if_neg h, ih]
      simp [List.countP_cons, h]

/-- Helper: the fold over freshly formed words sums the per-word
trigger-match contributions. -/
theorem wordFold_score (v : Int) (ids : List String) (triggers : List CompiledOp)
    (wsf : List WordMetadata) (acc : ChainScoreResult) :
    (wsf.foldl (fun acc2 newWord =>
      triggers.foldl (fun acc3 trigger =>
        if newWord.word = trigger.word then
          { score := acc3.score + v,
            activeCellIds := addActive (addActive acc3.activeCellIds newWord.cellIds) ids }
        else acc3) acc2) acc).score =
    acc.score + (wsf.map fun w =>
      ((triggers.countP fun trig => decide (w.word = trig.word) : Nat) : Int) * v).sum := by
  induction wsf generalizing acc with
  | nil => simp
  | cons w rest ih =>
    rw [List.foldl_cons, ih, triggerFold_score]
    simp only [List.map_cons, List.sum_cons]
    ring

/-- A compiled chain whose Trigger word is "CAT" and whose cascade
outcome is 30 (a single THEN action of word score 30). -/
def chainCAT : CompiledChain :=
  { id := 1,
    compiledOps := [mkChainOp Operator.IF 1 "CAT" 5, mkChainOp Operator.THEN 2 "NET" 30],
    dataWords := [] }

/-- C3: after a committed turn, a chain with Triggers, Actions, and an
established cascade pays the cascade outcome once per (freshly formed
word of the current turn in the chain's cluster, Trigger with exactly
matching word text) pair. In particular a chain with Trigger word
"CAT" and cascade outcome 30 pays exactly 30 when "CAT" is newly
formed in its cluster, and 0 for any other word. -/
theorem trigger_replay_payout :
    (∀ (chain : CompiledChain) (ws : List WordMetadata) (t : Nat),
      chain.compiledOps.filter isTrigger ≠ [] →
      chain.compiledOps.filter (fun op => ¬ isTrigger op) ≠ [] →
      (cascadeOutcome (chain.compiledOps.filter fun op => ¬ isTrigger op)).2 = true →
      (calculateChainScore [chain] ws t).score =
        ((ws.filter fun w => w.turn = t ∧ w.clusterId = chain.id).map fun w =>
          (((chain.compiledOps.filter isTrigger).countP fun trig =>
            decide (w.word = trig.word) : Nat) : Int) *
          (cascadeOutcome (chain.compiledOps.filter fun op => ¬ isTrigger op)).1).sum) ∧
    (calculateChainScore [chainCAT]
      [{ word := "CAT", score := 5, turn := 9, cellIds := ["a"], clusterId := 1 }] 9).score = 30 ∧
    (calculateChainScore [chainCAT]
      [{ word := "DOG", score := 5, turn := 9, cellIds := ["a"], clusterId := 1 }] 9).score = 0 := by
  refine ⟨?_, by decide, by decide⟩
  intro chain ws t htrig hact hest
  simp only [calculateChainScore, List.foldl_cons, List.foldl_nil]
  rw [if_neg (by
    rw [List.isEmpty_iff, List.isEmpty_iff]
    push_neg
    exact ⟨htrig, hact⟩)]
  rw [if_neg (by
    rw [hest]
    simp)]
  rw [wordFold_score]
  simp

/-- Witness for `trigger_replay_payout` at the concrete "CAT" chain. -/
theorem trigger_replay_payout_witness :
    (calculateChainScore [chainCAT]
      [{ word := "CAT", score := 5, turn := 9, cellIds := ["a"], clusterId := 1 }] 9).score =
      (([({ word := "CAT", score := 5, turn := 9, cellIds := ["a"],
            clusterId := 1 } : WordMetadata)].filter fun w =>
          w.turn = 9 ∧ w.clusterId = chainCAT.id).map fun w =>
        (((chainCAT.compiledOps.filter isTrigger).countP fun trig =>
          decide (w.word = trig.word) : Nat) : Int) *
        (cascadeOutcome (chainCAT.compiledOps.filter fun op => ¬ isTrigger op)).1).sum :=
  trigger_replay_payout.1 chainCAT
    [{ word := "CAT", score := 5, turn := 9, cellIds := ["a"], clusterId := 1 }] 9
    (by decide) (by decide) (by decide)

/-- Helper: on a list sorted ascending by turn, `find?` returns an
element of minimal turn among those satisfying the predicate. -/
theorem find?_min_turn :
    ∀ (l : List CompiledOp), l.Sorted byTurn →
      ∀ (p : CompiledOp → Bool) (e : CompiledOp), l.find? p = some e →
      ∀ x ∈ l, p x = true → e.turn ≤ x.turn := by
  intro l
  induction l with
  | nil =>
    intro _ p e he
    simp at he
  | cons a t ih =>
    intro hs p e he x hx hpx
    rw [List.sorted_cons] at hs
    obtain ⟨hrel, hst⟩ := hs
    by_cases hpa : p a = true
    · rw [List.find?_cons_of_pos _ hpa] at he
      cases he
      rcases List.mem_cons.mp hx with rfl | hx'
      · exact Nat.le_refl _
      · exact hrel x hx'
    · rw [List.find?_cons_of_neg _ hpa] at he
      rcases List.mem_cons.mp hx with rfl | hx'
      · exact absurd hpx hpa
      · exact ih hst p e he x hx' hpx

/-- C2: chain assembly produces the single earliest IF (if any), then
the ORs ascending by turn, then the single earliest THEN (if any),
then the ANDs and PLUSes interleaved ascending by turn, then the
MINUS/MULT/OVER entries interleaved ascending by turn; and the
concrete entry list IF@1, OR@3, OR@2, THEN@4, AND@6, PLUS@5, MULT@7
compiles to exactly [IF, OR@2, OR@3, THEN, PLUS@5, AND@6, MULT@7]. -/
theorem chain_assembly_order :
    (∀ ops : List CompiledOp,
      ∃ ifPart thenPart,
        assembleChain ops = ifPart ++
          List.insertionSort byTurn
            ((List.insertionSort byTurn ops).filter fun x => x.op = Operator.OR) ++
          thenPart ++
          List.insertionSort byTurn
            ((List.insertionSort byTurn ops).filter fun x =>
              x.op = Operator.AND ∨ x.op = Operator.PLUS) ++
          List.insertionSort byTurn
            ((List.insertionSort byTurn ops).filter fun x =>
              [Operator.MINUS, Operator.MULT, Operator.OVER].contains x.op) ∧
        (List.insertionSort byTurn
          ((List.insertionSort byTurn ops).filter fun x => x.op = Operator.OR)).Perm
          (ops.filter fun x => x.op = Operator.OR) ∧
        (List.insertionSort byTurn
          ((List.insertionSort byTurn ops).filter fun x => x.op = Operator.OR)).Sorted byTurn ∧
        (List.insertionSort byTurn
          ((List.insertionSort byTurn ops).filter fun x =>
            x.op = Operator.AND ∨ x.op = Operator.PLUS)).Perm
          (ops.filter fun x => x.op = Operator.AND ∨ x.op = Operator.PLUS) ∧
        (List.insertionSort byTurn
          ((List.insertionSort byTurn ops).filter fun x =>
            x.op = Operator.AND ∨ x.op = Operator.PLUS)).Sorted byTurn ∧
        (List.insertionSort byTurn
          ((List.insertionSort byTurn ops).filter fun x =>
            [Operator.MINUS, Operator.MULT, Operator.OVER].contains x.op)).Perm
          (ops.filter fun x => [Operator.MINUS, Operator.MULT, Operator.OVER].contains x.op) ∧
        (List.insertionSort byTurn
          ((List.insertionSort byTurn ops).filter fun x =>
            [Operator.MINUS, Operator.MULT, Operator.OVER].contains x.op)).Sorted byTurn ∧
        ((ifPart = [] ∧ ∀ x ∈ ops, x.op ≠ Operator.IF) ∨
          (∃ e, ifPart = [e] ∧ e ∈ ops ∧ e.op = Operator.IF ∧
            ∀ x ∈ ops, x.op = Operator.IF → e.turn ≤ x.turn)) ∧
        ((thenPart = [] ∧ ∀ x ∈ ops, x.op ≠ Operator.THEN) ∨
          (∃ e, thenPart = [e] ∧ e ∈ ops ∧ e.op = Operator.THEN ∧
            ∀ x ∈ ops, x.op = Operator.THEN → e.turn ≤ x.turn))) ∧
    assembleChain [mkChainOp Operator.IF 1 "w1" 1, mkChainOp Operator.OR 3 "w2" 1,
      mkChainOp Operator.OR 2 "w3" 1, mkChainOp Operator.THEN 4 "w4" 1,
      mkChainOp Operator.AND 6 "w5" 1, mkChainOp Operator.PLUS 5 "w6" 1,
      mkChainOp Operator.MULT 7 "w7" 1] =
    [mkChainOp Operator.IF 1 "w1" 1, mkChainOp Operator.OR 2 "w3" 1,
      mkChainOp Operator.OR 3 "w2" 1, mkChainOp Operator.THEN 4 "w4" 1,
      mkChainOp Operator.PLUS 5 "w6" 1, mkChainOp Operator.AND 6 "w5" 1,
      mkChainOp Operator.MULT 7 "w7" 1] := by
  constructor
  · intro ops
    refine ⟨_, _, rfl,
      (List.perm_insertionSort byTurn _).trans ((List.perm_insertionSort byTurn ops).filter _),
      List.sorted_insertionSort byTurn _,
      (List.perm_insertionSort byTurn _).trans ((List.perm_insertionSort byTurn ops).filter _),
      List.sorted_insertionSort byTurn _,
      (List.perm_insertionSort byTurn _).trans ((List.perm_insertionSort byTurn ops).filter _),
      List.sorted_insertionSort byTurn _,
      ?_, ?_⟩
    · cases hfind : (List.insertionSort byTurn ops).find? (fun x => decide (x.op = Operator.IF)) with
      | none =>
        left
        refine ⟨rfl, fun x hx hxop => ?_⟩
        have hx' : x ∈ List.insertionSort byTurn ops :=
          ((List.perm_insertionSort byTurn ops).mem_iff).mpr hx
        exact (List.find?_eq_none.mp hfind x hx') (decide_eq_true hxop)
      | some e =>
        right
        have hmem : e ∈ List.insertionSort byTurn ops := List.mem_of_find?_eq_some hfind
        have hpe := List.find?_some hfind
        refine ⟨e, rfl, (List.perm_insertionSort byTurn ops).mem_iff.mp hmem,
          of_decide_eq_true hpe, fun x hx hxop => ?_⟩
        exact find?_min_turn _ (List.sorted_insertionSort byTurn ops) _ e hfind x
          (((List.perm_insertionSort byTurn ops).mem_iff).mpr hx) (decide_eq_true hxop)
    · cases hfind : (List.insertionSort byTurn ops).find? (fun x => decide (x.op = Operator.THEN)) with
      | none =>
        left
        refine ⟨rfl, fun x hx hxop => ?_⟩
        have hx' : x ∈ List.insertionSort byTurn ops :=
          ((List.perm_insertionSort byTurn ops).mem_iff).mpr hx
        exact (List.find?_eq_none.mp hfind x hx') (decide_eq_true hxop)
      | some e =>
        right
        have hmem : e ∈ List.insertionSort byTurn ops := List.mem_of_find?_eq_some hfind
        have hpe := List.find?_some hfind
        refine ⟨e, rfl, (List.perm_insertionSort byTurn ops).mem_iff.mp hmem,
          of_decide_eq_true hpe, fun x hx hxop => ?_⟩
        exact find?_min_turn _ (List.sorted_insertionSort byTurn ops) _ e hfind x
          (((List.perm_insertionSort byTurn ops).mem_iff).mpr hx) (decide_eq_true hxop)
  · decide

/-- Helper: `getD` after writing `l.getD j d` at position `i` still
reads `l.getD j d` at position `j`. -/
theorem getD_set_value : ∀ (l : List Char) (i j : Nat) (d : Char), i < l.length →
    (l.set i (l.getD j d)).getD j d = l.getD j d := by
  intro l
  induction l with
  | nil =>
    intro i j d h
    simp at h
  | cons a t ih =>
    intro i j d h
    cases i with
    | zero =>
      cases j with
      | zero => simp
      | succ k => simp
    | succ m =>
      cases j with
      | zero => simp
      | succ k =>
        simp only [List.getD_cons_succ, List.set_cons_succ]
        exact ih m k d (by simpa using h)

/-- Helper: counting after a single in-range write. -/
theorem count_set_aux : ∀ (l : List Char) (i : Nat) (b x : Char), i < l.length →
    (l.set i b).count x + (if l.getD i ' ' = x then 1 else 0) =
    l.count x + (if b = x then 1 else 0) := by
  intro l
  induction l with
  | nil =>
    intro i b x h
    simp at h
  | cons a t ih =>
    intro i b x h
    cases i with
    | zero =>
      simp only [List.set_cons_zero, List.getD_cons_zero, List.count_cons, beq_iff_eq]
      omega
    | succ m =>
      have ihm := ih m b x (by simpa using h)
      simp only [List.set_cons_succ, List.getD_cons_succ, List.count_cons, beq_iff_eq]
      omega

/-- Helper: a Fisher–Yates swap of two in-range positions preserves
every letter count. -/
theorem swapAt_count (l : List Char) (i j : Nat) (hi : i < l.length)
    (hj : j < l.length) (x : Char) : (swapAt l i j).count x = l.count x := by
  have h1 : j < (l.set i (l.getD j ' ')).length := by simpa using hj
  have e1 := count_set_aux (l.set i (l.getD j ' ')) j (l.getD i ' ') x h1
  have e2 := count_set_aux l i (l.getD j ' ') x hi
  rw [getD_set_value l i j ' ' hi] at e1
  unfold swapAt
  omega

theorem swapAt_length (l : List Char) (i j : Nat) :
    (swapAt l i j).length = l.length := by
  simp [swapAt]

/-- Helper: the whole shuffle loop preserves counts and length. -/
theorem fisherYatesAux_count (oracle : Nat → Nat) (x : Char) :
    ∀ (i : Nat) (l : List Char), i < l.length →
      (fisherYatesAux oracle i l).count x = l.count x ∧
      (fisherYatesAux oracle i l).length = l.length := by
  intro i
  induction i with
  | zero =>
    intro l _
    exact ⟨rfl, rfl⟩
  | succ m ih =>
    intro l h
    have hj : oracle (m + 1) % (m + 2) < l.length := by
      have := Nat.mod_lt (oracle (m + 1)) (show 0 < m + 2 by omega)
      omega
    have hswaplen : (swapAt l (m + 1) (oracle (m + 1) % (m + 2))).length = l.length :=
      swapAt_length l (m + 1) (oracle (m + 1) % (m + 2))
    have hm : m < (swapAt l (m + 1) (oracle (m + 1) % (m + 2))).length := by omega
    have ihr := ih (swapAt l (m + 1) (oracle (m + 1) % (m + 2))) hm
    unfold fisherYatesAux
    refine ⟨?_, ?_⟩
    · rw [ihr.1, swapAt_count l (m + 1) (oracle (m + 1) % (m + 2)) h hj x]
    · rw [ihr.2, hswaplen]

/-- Helper: the generated bag always has the base multiset's length. -/
theorem generateTileBag_length (oracle : Nat → Nat) :
    (generateTileBag oracle).length = baseBag.length :=
  (fisherYatesAux_count oracle 'A' (baseBag.length - 1) baseBag (by decide)).2

/-- C6 counterexample: the reference distribution expands to 100
tiles, not 101, so the generated bag has 100 tiles. -/
theorem bag_total_counterexample :
    (generateTileBag (fun _ => 0)).length = 100 ∧ (100 : Nat) ≠ 101 := by
  constructor
  · rw [generateTileBag_length]
    decide
  · decide

set_option maxRecDepth 4000 in
/-- C6 (amended): `generateTileBag` returns a permutation of the
expansion of the fixed distribution table — per-letter counts match the
table exactly — and the total tile count is 100 (not 101 as the claim
states). -/
theorem bag_generation_multiset (oracle : Nat → Nat) :
    (generateTileBag oracle).Perm baseBag ∧
    (∀ p ∈ LETTER_DISTRIBUTION, (generateTileBag oracle).count p.1 = p.2) ∧
    (generateTileBag oracle).length = 100 := by
  have hlen : baseBag.length - 1 < baseBag.length := by decide
  have hcount : ∀ x, (generateTileBag oracle).count x = baseBag.count x :=
    fun x => (fisherYatesAux_count oracle x (baseBag.length - 1) baseBag hlen).1
  refine ⟨List.perm_iff_count.mpr hcount, ?_, ?_⟩
  · intro p hp
    rw [hcount p.1]
    revert hp
    revert p
    decide
  · rw [generateTileBag_length]
    decide

/-- Witness for `bag_generation_multiset` at the 'A' table entry. -/
theorem bag_generation_multiset_witness :
    (generateTileBag (fun _ => 0)).count 'A' = 9 :=
  (bag_generation_multiset (fun _ => 0)).2.1 ('A', 9) (by decide)

/-- A board with a locked word "AB" at (0,0)-(0,1), a new hook letter
'S' at (0,2) touching it, and a second, fully detached new word "AB"
at (5,5)-(5,6) with no locked neighbor anywhere near it. -/
def g4 : Grid :=
  placeLetter (placeLetter (placeLetter (placeLetter (placeLetter emptyGrid
    0 0 'A' true false 1) 0 1 'B' true false 1) 0 2 'S' false false 2)
    5 5 'A' false false 2) 5 6 'B' false false 2

set_option maxRecDepth 10000 in
/-- C4 counterexample: in ACROSTIC mode with locked tiles on the board,
`validatePlacementRules` accepts `g4` although the newly placed cells
(5,5) and (5,6) — which form the complete maximal run (5,5)-(5,6), all
their other neighbors being empty — have no locked lettered orthogonal
neighbor, directly or via the word they are part of. -/
theorem acrostic_connectivity_counterexample :
    validatePlacementRules g4 GameMode.DYNAMIC PlacementMode.ACROSTIC
      (some ["AB", "ABS"]) = true ∧
    (getCell g4 5 5).letter.isSome = true ∧ (getCell g4 5 5).isLocked = false ∧
    (getCell g4 5 6).letter.isSome = true ∧ (getCell g4 5 6).isLocked = false ∧
    hasLockedTiles g4 = true ∧
    hasLockedNeighbor g4 (5, 5) = false ∧
    hasLockedNeighbor g4 (5, 6) = false ∧
    (getCell g4 4 5).letter = none ∧ (getCell g4 6 5).letter = none ∧
    (getCell g4 5 4).letter = none ∧ (getCell g4 5 7).letter = none ∧
    (getCell g4 4 6).letter = none ∧ (getCell g4 6 6).letter = none := by
  decide

/-- C4 (amended): in ACROSTIC mode, once the board has locked tiles and
at least one new tile exists, `validatePlacementRules` returns true
only if at least one newly placed (unlocked) lettered cell has a locked
lettered orthogonal neighbor — the code checks existence over the new
tiles, not every new tile. -/
theorem acrostic_connectivity_exists (g : Grid) (gameMode : GameMode)
    (dict : List String) (hlock : hasLockedTiles g = true)
    (hnew : newTilesList g ≠ [])
    (hvalid : validatePlacementRules g gameMode PlacementMode.ACROSTIC
      (some dict) = true) :
    ∃ t ∈ newTilesList g, hasLockedNeighbor g t = true := by
  unfold validatePlacementRules at hvalid
  simp only [Bool.and_eq_true] at hvalid
  have hconn : connectivityOk g PlacementMode.ACROSTIC = true := by tauto
  unfold connectivityOk at hconn
  rw [if_pos rfl, if_pos hlock,
    if_pos (List.length_pos.mpr hnew : (newTilesList g).length > 0)] at hconn
  obtain ⟨t, ht, hp⟩ := List.any_eq_true.mp hconn
  exact ⟨t, ht, hp⟩

set_option maxRecDepth 10000 in
/-- Witness for `acrostic_connectivity_exists` on `g4`. -/
theorem acrostic_connectivity_exists_witness :
    ∃ t ∈ newTilesList g4, hasLockedNeighbor g4 t = true :=
  acrostic_connectivity_exists g4 GameMode.DYNAMIC ["AB", "ABS"]
    (by decide) (by decide) (by decide)

/-- C8: the move search's placement evaluation returns the rejection
sentinel -1 whenever the word would start off-board or run off the
board's edge, whenever the overlay fails (an existing letter that does
not exactly match, or a scratch hand — wildcards included — that cannot
supply a needed letter), whenever zero new letters would be placed, and
whenever validation of the hypothetical board fails; and the session
state threaded through `evaluatePlacementSession` comes back unchanged
because only scratch copies are written. -/
theorem evaluatePlacement_rejection (st : SearchState) (word : String)
    (pivotIdx ar ac : Nat) (dir : Dir) :
    (placementStartR pivotIdx ar dir < 0 ∨ placementStartC pivotIdx ac dir < 0 →
      evaluatePlacement st word pivotIdx ar ac dir = -1) ∧
    (dir = Dir.H ∧ placementStartC pivotIdx ac dir + (word.length : Int) >
        (BOARD_SIZE : Int) →
      evaluatePlacement st word pivotIdx ar ac dir = -1) ∧
    (dir = Dir.V ∧ placementStartR pivotIdx ar dir + (word.length : Int) >
        (BOARD_SIZE : Int) →
      evaluatePlacement st word pivotIdx ar ac dir = -1) ∧
    (overlayWord dir (placementStartR pivotIdx ar dir) (placementStartC pivotIdx ac dir)
        st.turnCount word.toList 0 (cloneGrid st.grid) st.cpuHand 0 [] = none →
      evaluatePlacement st word pivotIdx ar ac dir = -1) ∧
    (∀ (g' : Grid) (h' : List Char) (placed : Nat) (coords : List (Nat × Nat)),
      overlayWord dir (placementStartR pivotIdx ar dir) (placementStartC pivotIdx ac dir)
          st.turnCount word.toList 0 (cloneGrid st.grid) st.cpuHand 0 [] =
        some (g', h', placed, coords) →
      (placed = 0 → evaluatePlacement st word pivotIdx ar ac dir = -1) ∧
      (validatePlacementRules g' st.gameMode st.placementMode st.dictionary = false →
        evaluatePlacement st word pivotIdx ar ac dir = -1)) ∧
    (evaluatePlacementSession st word pivotIdx ar ac dir).2 = st := by
  have hsession : (evaluatePlacementSession st word pivotIdx ar ac dir).2 = st := rfl
  by_cases h1 : placementStartR pivotIdx ar dir < 0 ∨ placementStartC pivotIdx ac dir < 0
  · have hres : evaluatePlacement st word pivotIdx ar ac dir = -1 := by
      simp only [evaluatePlacement]
      rw [if_pos h1]
    exact ⟨fun _ => hres, fun _ => hres, fun _ => hres, fun _ => hres,
      fun _ _ _ _ _ => ⟨fun _ => hres, fun _ => hres⟩, hsession⟩
  · by_cases h2 : dir = Dir.H ∧ placementStartC pivotIdx ac dir + (word.length : Int) >
        (BOARD_SIZE : Int)
    · have hres : evaluatePlacement st word pivotIdx ar ac dir = -1 := by
        simp only [evaluatePlacement]
        rw [if_neg h1, if_pos h2]
      exact ⟨fun _ => hres, fun _ => hres, fun _ => hres, fun _ => hres,
        fun _ _ _ _ _ => ⟨fun _ => hres, fun _ => hres⟩, hsession⟩
    · by_cases h3 : dir = Dir.V ∧ placementStartR pivotIdx ar dir + (word.length : Int) >
          (BOARD_SIZE : Int)
      · have hres : evaluatePlacement st word pivotIdx ar ac dir = -1 := by
          simp only [evaluatePlacement]
          rw [if_neg h1, if_neg h2, if_pos h3]
        exact ⟨fun _ => hres, fun _ => hres, fun _ => hres, fun _ => hres,
          fun _ _ _ _ _ => ⟨fun _ => hres, fun _ => hres⟩, hsession⟩
      · cases hov : overlayWord dir (placementStartR pivotIdx ar dir)
            (placementStartC pivotIdx ac dir) st.turnCount word.toList 0
            (cloneGrid st.grid) st.cpuHand 0 [] with
        | none =>
          have hres : evaluatePlacement st word pivotIdx ar ac dir = -1 := by
            simp only [evaluatePlacement]
            rw [if_neg h1, if_neg h2, if_neg h3, hov]
          refine ⟨fun h => absurd h h1, fun h => absurd h h2, fun h => absurd h h3,
            fun _ => hres, fun g' h' placed coords hsome => ?_, hsession⟩
          exact absurd hsome (by simp)
        | some out =>
          obtain ⟨g0, h0, placed0, coords0⟩ := out
          refine ⟨fun h => absurd h h1, fun h => absurd h h2, fun h => absurd h h3,
            fun hnone => ?_, fun g' h' placed coords hsome => ?_, hsession⟩
          · exact absurd hnone (by simp)
          · have hinj : g0 = g' ∧ h0 = h' ∧ placed0 = placed ∧ coords0 = coords := by
              simpa using hsome
            obtain ⟨rfl, rfl, rfl, rfl⟩ := hinj
            constructor
            · intro hp
              simp only [evaluatePlacement]
              rw [if_neg h1, if_neg h2, if_neg h3, hov]
              simp [hp]
            · intro hvf
              simp only [evaluatePlacement]
              rw [if_neg h1, if_neg h2, if_neg h3, hov]
              simp [hvf]

/-- Witness for `evaluatePlacement_rejection`: a pivot left of the
board start is rejected with -1. -/
theorem evaluatePlacement_rejection_witness :
    evaluatePlacement
      { grid := emptyGrid, gameMode := GameMode.DYNAMIC, dictionary := none,
        placementMode := PlacementMode.ACROSTIC, cpuHand := [], turnCount := 1 }
      "AB" 5 0 0 Dir.H = -1 :=
  (evaluatePlacement_rejection
    { grid := emptyGrid, gameMode := GameMode.DYNAMIC, dictionary := none,
      placementMode := PlacementMode.ACROSTIC, cpuHand := [], turnCount := 1 }
    "AB" 5 0 0 Dir.H).1 (by decide)

/-- Helper: summing cell scores by fold equals the sum of the mapped
scores. -/
theorem foldl_add_score (l : List CellData) (s : Int) :
    l.foldl (fun sum cell => sum + getCellScore cell) s =
      s + (l.map getCellScore).sum := by
  induction l generalizing s with
  | nil => simp
  | cons a t ih =>
    rw [List.foldl_cons, ih]
    simp only [List.map_cons, List.sum_cons]
    ring

/-- Helper: the backward walk to a run's start depends only on which
cells are lettered. -/
theorem scanBackward_congr (g1 g2 : Grid)
    (h1 : ∀ r c : Nat, (getCell g2 r c).letter.isSome = (getCell g1 r c).letter.isSome) :
    ∀ (fuel : Nat) (r c dr dc : Int),
      scanBackward g2 fuel r c dr dc = scanBackward g1 fuel r c dr dc := by
  intro fuel
  induction fuel with
  | zero =>
    intro r c dr dc
    rfl
  | succ n ih =>
    intro r c dr dc
    unfold scanBackward
    apply if_congr
    · simp only [getCellI, h1]
    · exact ih (r - dr) (c - dc) dr dc
    · rfl

/-- Helper: the collected run has the same cell-score sequence on two
grids that agree on letteredness and per-cell score. -/
theorem collectWord_congr (g1 g2 : Grid)
    (h1 : ∀ r c : Nat, (getCell g2 r c).letter.isSome = (getCell g1 r c).letter.isSome)
    (h2 : ∀ r c : Nat, getCellScore (getCell g2 r c) = getCellScore (getCell g1 r c)) :
    ∀ (fuel : Nat) (r c dr dc : Int),
      (collectWord g2 fuel r c dr dc).map getCellScore =
        (collectWord g1 fuel r c dr dc).map getCellScore := by
  intro fuel
  induction fuel with
  | zero =>
    intro r c dr dc
    rfl
  | succ n ih =>
    intro r c dr dc
    unfold collectWord
    by_cases hc : 0 ≤ r ∧ r < (BOARD_SIZE : Int) ∧ 0 ≤ c ∧ c < (BOARD_SIZE : Int) ∧
        (getCellI g1 r c).letter.isSome = true
    · have hc2 : 0 ≤ r ∧ r < (BOARD_SIZE : Int) ∧ 0 ≤ c ∧ c < (BOARD_SIZE : Int) ∧
          (getCellI g2 r c).letter.isSome = true := by
        simp only [getCellI, h1]
        exact hc
      rw [if_pos hc2, if_pos hc]
      simp only [List.map_cons]
      rw [ih (r + dr) (c + dc) dr dc]
      congr 1
      simp only [getCellI]
      exact h2 r.toNat c.toNat
    · have hc2 : ¬ (0 ≤ r ∧ r < (BOARD_SIZE : Int) ∧ 0 ≤ c ∧ c < (BOARD_SIZE : Int) ∧
          (getCellI g2 r c).letter.isSome = true) := by
        simp only [getCellI, h1]
        exact hc
      rw [if_neg hc2, if_neg hc]

/-- Helper: a single run scan produces the same accumulator update on
two grids that agree on letteredness and per-cell score. -/
theorem scanRun_congr (g1 g2 : Grid)
    (h1 : ∀ r c : Nat, (getCell g2 r c).letter.isSome = (getCell g1 r c).letter.isSome)
    (h2 : ∀ r c : Nat, getCellScore (getCell g2 r c) = getCellScore (getCell g1 r c))
    (r c : Nat) (dr dc : Int) (acc : List String × Int) :
    scanRun g2 r c dr dc acc = scanRun g1 r c dr dc acc := by
  simp only [scanRun]
  rw [scanBackward_congr g1 g2 h1]
  have hmap := collectWord_congr g1 g2 h1 h2 (BOARD_SIZE + 1)
    (scanBackward g1 (BOARD_SIZE + 1) r c dr dc).1
    (scanBackward g1 (BOARD_SIZE + 1) r c dr dc).2 dr dc
  have hlen : (collectWord g2 (BOARD_SIZE + 1)
        (scanBackward g1 (BOARD_SIZE + 1) r c dr dc).1
        (scanBackward g1 (BOARD_SIZE + 1) r c dr dc).2 dr dc).length =
      (collectWord g1 (BOARD_SIZE + 1)
        (scanBackward g1 (BOARD_SIZE + 1) r c dr dc).1
        (scanBackward g1 (BOARD_SIZE + 1) r c dr dc).2 dr dc).length := by
    simpa using congrArg List.length hmap
  refine if_congr (by rw [hlen]) (if_congr Iff.rfl rfl ?_) rfl
  rw [foldl_add_score, foldl_add_score, hmap]

/-- Helper: the base scoring function is invariant between two grids
that agree on letteredness and per-cell score. -/
theorem calculateScrabbleScore_congr (g1 g2 : Grid)
    (h1 : ∀ r c : Nat, (getCell g2 r c).letter.isSome = (getCell g1 r c).letter.isSome)
    (h2 : ∀ r c : Nat, getCellScore (getCell g2 r c) = getCellScore (getCell g1 r c))
    (newTiles : List (Nat × Nat)) :
    calculateScrabbleScore g2 newTiles = calculateScrabbleScore g1 newTiles := by
  suffices h : ∀ acc : List String × Int,
      newTiles.foldl (fun acc t =>
        if (getCell g2 t.1 t.2).letter.isSome then
          scanRun g2 t.1 t.2 1 0 (scanRun g2 t.1 t.2 0 1 acc)
        else acc) acc =
      newTiles.foldl (fun acc t =>
        if (getCell g1 t.1 t.2).letter.isSome then
          scanRun g1 t.1 t.2 1 0 (scanRun g1 t.1 t.2 0 1 acc)
        else acc) acc by
    unfold calculateScrabbleScore
    rw [h ([], 0)]
  induction newTiles with
  | nil =>
    intro acc
    rfl
  | cons t rest ih =>
    intro acc
    rw [List.foldl_cons, List.foldl_cons, ih]
    congr 1
    by_cases hc : (getCell g1 t.1 t.2).letter.isSome = true
    · rw [if_pos ((h1 t.1 t.2).trans hc), if_pos hc, scanRun_congr g1 g2 h1 h2,
        scanRun_congr g1 g2 h1 h2]
    · rw [if_neg (fun hh => hc ((h1 t.1 t.2).symm.trans hh)), if_neg hc]

/-- C9: for any two grids that differ only in the resolved letter of a
single cell whose `isBlank` flag is set (both grids keeping it
lettered), `calculateScrabbleScore` is unchanged for every set of new
tiles: a blank cell always contributes 0 regardless of its resolved
value. -/
theorem blank_letter_invariance (g1 g2 : Grid) (newTiles : List (Nat × Nat))
    (r c : Nat) (b : Char)
    (hother : ∀ r' c' : Nat, ¬(r' = r ∧ c' = c) → getCell g2 r' c' = getCell g1 r' c')
    (hblank : (getCell g1 r c).isBlank = true)
    (hletter : (getCell g1 r c).letter.isSome = true)
    (hcell : getCell g2 r c = { getCell g1 r c with letter := some b }) :
    calculateScrabbleScore g2 newTiles = calculateScrabbleScore g1 newTiles := by
  have h1 : ∀ r' c' : Nat,
      (getCell g2 r' c').letter.isSome = (getCell g1 r' c').letter.isSome := by
    intro r' c'
    by_cases h : r' = r ∧ c' = c
    · obtain ⟨rfl, rfl⟩ := h
      rw [hcell, hletter]
      rfl
    · rw [hother r' c' h]
  have h2 : ∀ r' c' : Nat,
      getCellScore (getCell g2 r' c') = getCellScore (getCell g1 r' c') := by
    intro r' c'
    by_cases h : r' = r ∧ c' = c
    · obtain ⟨rfl, rfl⟩ := h
      rw [hcell]
      unfold getCellScore
      simp [hblank]
    · rw [hother r' c' h]
  exact calculateScrabbleScore_congr g1 g2 h1 h2 newTiles

/-- Helper: `getD` after `set`, split by whether the write hits the
read position. -/
theorem getD_set_split {α : Type} (l : List α) (i j : Nat) (a d : α) :
    (l.set i a).getD j d = if i = j ∧ i < l.length then a else l.getD j d := by
  induction l generalizing i j with
  | nil => simp
  | cons b t ih =>
    cases i with
    | zero =>
      cases j with
      | zero => simp
      | succ k => simp
    | succ m =>
      cases j with
      | zero => simp
      | succ k =>
        simp only [List.set_cons_succ, List.getD_cons_succ, ih m k]
        apply if_congr
        · rw [List.length_cons]
          omega
        · rfl
        · rfl

/-- Helper: writing one cell leaves every other cell unchanged. -/
theorem getCell_setCellFull_ne (g : Grid) (r c : Nat) (cell : CellData)
    (r' c' : Nat) (h : ¬(r' = r ∧ c' = c)) :
    getCell (setCellFull g r c cell) r' c' = getCell g r' c' := by
  unfold getCell setCellFull
  rw [getD_set_split]
  by_cases hr : r = r' ∧ r < g.length
  · rw [if_pos hr]
    obtain ⟨rfl, _⟩ := hr
    rw [getD_set_split]
    have hcc : ¬(c = c' ∧ c < (g.getD r []).length) := by
      rintro ⟨rfl, _⟩
      exact h ⟨rfl, rfl⟩
    rw [if_neg hcc]
  · rw [if_neg hr]

/-- A board with "CA" at (0,0)-(0,1) where the 'A' is a resolved blank,
and its variant with the blank's letter changed to 'Q'. -/
def gB1 : Grid :=
  placeLetter (placeLetter emptyGrid 0 0 'C' false false 1) 0 1 'A' false true 1

def gB2 : Grid :=
  placeLetter gB1 0 1 'Q' false true 1

set_option maxRecDepth 10000 in
/-- Witness for `blank_letter_invariance` on a concrete two-cell word
with a resolved blank. -/
theorem blank_letter_invariance_witness :
    calculateScrabbleScore gB2 [(0, 0), (0, 1)] =
      calculateScrabbleScore gB1 [(0, 0), (0, 1)] :=
  blank_letter_invariance gB1 gB2 [(0, 0), (0, 1)] 0 1 'Q'
    (fun r' c' h => getCell_setCellFull_ne gB1 0 1
      { getCell gB1 0 1 with
        letter := some 'Q', isLocked := false, isBlank := true, turnPlaced := 1 }
      r' c' h)
    (by decide) (by decide) (by decide)

/-- Modelled from the spec claim's words: the logic analyzer with every
maximal lettered run of length greater than 1 treated as a valid word
(the word-validity predicate is constantly true), to be compared with
`analyzeBoardLogic` applied to an absent dictionary. -/
def analyzeBoardLogicEveryRun (g : Grid) (placementMode : PlacementMode) : AnalyzeResult :=
  analyzeCore g (fun _ => true) placementMode

/-- A board with the (dictionary-free) letters "XQZ" at (4,3)-(4,5),
crossing an IF operator cell at (4,4) and a THEN operator cell at
(4,5), all locked at turn 3. -/
def g10 : Grid :=
  placeOperator (placeOperator
    (placeLetter (placeLetter (placeLetter emptyGrid 4 3 'X' true false 3)
      4 4 'Q' true false 3) 4 5 'Z' true false 3)
    4 4 Operator.IF) 4 5 Operator.THEN

set_option maxRecDepth 10000 in
/-- C10: with an absent dictionary, `analyzeBoardLogic` treats every
maximal lettered run of length > 1 as a valid word (it coincides with
the every-run analyzer), so word records, compiled chains, and cascade
outcomes are still produced — unlike placement validation, which fails
closed on the same missing dictionary. -/
theorem analyzeBoardLogic_no_dictionary :
    (∀ (g : Grid) (pm : PlacementMode),
      analyzeBoardLogic g none pm = analyzeBoardLogicEveryRun g pm) ∧
    validatePlacementRules g10 GameMode.DYNAMIC PlacementMode.ACROSTIC none = false ∧
    (analyzeBoardLogic g10 none PlacementMode.ACROSTIC).allValidWords ≠ [] ∧
    (analyzeBoardLogic g10 none PlacementMode.ACROSTIC).chains ≠ [] ∧
    (calculateChainScore (analyzeBoardLogic g10 none PlacementMode.ACROSTIC).chains
      (analyzeBoardLogic g10 none PlacementMode.ACROSTIC).allValidWords 3).score = 28 := by
  refine ⟨fun g pm => rfl, rfl, by decide, by decide, by decide⟩

end Claims

end LogOS
